import Mathlib

/-!
# Verification of the Starworld C-ABI bridge (src/bridge)

Shallow embedding of `src/bridge/src/lib.rs` and
`src/bridge/src/model_downloader.rs`.

Modelling conventions, stated once here:

* `f32` scalars are modelled as `ℚ`.  The only floating-point comparisons the
  claims touch are `dims.length() < 0.001` and `dims.length() > 0.001` in
  `BridgeState::reify`; since `length` is a nonnegative square root and
  `0.001 > 0`, these are modelled exactly by comparing the squared length
  against `(1/1000)^2`.
* glam's `Mat4` is consumed by the bridge only through
  `to_scale_rotation_translation` (in `reify`) and through store/compare in the
  node table, so it is modelled by the decomposition triple
  (scale, rotation, translation) that this call returns.
* `u64` values are modelled as `Nat`; the `next_id += 1` increment in
  `sdxr_create_node` is modelled with an explicit `% 2^64` (release-profile
  wrapping semantics of Rust integer addition).
* `HashMap<u64, Node>` (and the downloader's `HashMap<String, CacheEntry>`)
  are modelled as association lists with first-occurrence lookup; all maps
  reachable in the program have unique keys, under which the list operations
  below agree with the hash-map operations (`insert` replaces, `get_mut`
  mutates in place, `remove` deletes).
* The command consumer `cmd_task` holds the table mutex exactly for the
  duration of one command's application, so an application is one atomic step
  of the embedding: `applyCommand` is that step and draining is a fold.
* `lib.rs` as committed contains merge-conflict damage: the declarations of
  the `Node` struct tail, of the `Ctrl` struct and of the head of `sdxr_start`
  (lines 230-256) were overwritten by a duplicated fragment of `reify`.  Every
  `Node` field and every `Ctrl` field used by the surviving code is recovered
  from its uses (`transform`, `entity_type`, `model_url`, `texture_url`,
  `color`, `dimensions`; `next_id`, `tx`, `rt`, `handle`, `shared_state`,
  `nodes`); `ctrl.next_id = 1` at line 256 fixes the counter's start value.
-/

/-- A 3-component `f32` vector (`glam::Vec3`, `[f32; 3]`), scalars as `ℚ`. -/
structure Vec3 where
  x : ℚ
  y : ℚ
  z : ℚ
deriving DecidableEq, Repr

/-- Squared euclidean length of a `Vec3`; `v.length() < c` (for `c > 0`) is
modelled as `v.lengthSq < c^2`. -/
def Vec3.lengthSq (v : Vec3) : ℚ := v.x * v.x + v.y * v.y + v.z * v.z

/-- A quaternion (`glam::Quat`), scalars as `ℚ`. -/
structure Quat where
  x : ℚ
  y : ℚ
  z : ℚ
  w : ℚ
deriving DecidableEq, Repr

/-- An RGBA color (`[f32; 4]`), scalars as `ℚ`. -/
structure Rgba where
  r : ℚ
  g : ℚ
  b : ℚ
  a : ℚ
deriving DecidableEq, Repr

/-- `glam::Mat4`, modelled by the (scale, rotation, translation) decomposition
returned by `to_scale_rotation_translation`, the only way the bridge inspects
a matrix. -/
structure Mat4 where
  scale : Vec3
  rot : Quat
  trans : Vec3
deriving DecidableEq, Repr

/-- `Mat4::to_scale_rotation_translation` (used at lib.rs:144). -/
def Mat4.to_scale_rotation_translation (m : Mat4) : Vec3 × Quat × Vec3 :=
  (m.scale, m.rot, m.trans)

/-! ## Association-list maps

Model of `std::collections::HashMap` with first-occurrence semantics;
coincides with the hash map on the unique-key maps the program builds. -/

section AssocMap

variable {κ : Type} {α : Type} [DecidableEq κ]

/-- `HashMap::get` / `get(&k)`: first entry with key `k`. -/
def alLookup : List (κ × α) → κ → Option α
  | [], _ => none
  | (k', v) :: rest, k => if k' = k then some v else alLookup rest k

/-- `HashMap::insert`: replace the value at `k` if present, else append. -/
def alInsert : List (κ × α) → κ → α → List (κ × α)
  | [], k, v => [(k, v)]
  | (k', v') :: rest, k, v =>
      if k' = k then (k, v) :: rest else (k', v') :: alInsert rest k v

/-- `HashMap::get_mut` followed by an in-place mutation: rewrite the value at
`k` when present, identity when absent. -/
def alUpdate : List (κ × α) → κ → (α → α) → List (κ × α)
  | [], _, _ => []
  | (k', v) :: rest, k, f =>
      if k' = k then (k', f v) :: rest else (k', v) :: alUpdate rest k f

/-- `HashMap::remove`: drop the entry at `k`. -/
def alRemove : List (κ × α) → κ → List (κ × α)
  | [], _ => []
  | (k', v) :: rest, k => if k' = k then rest else (k', v) :: alRemove rest k

theorem alLookup_alInsert_self (m : List (κ × α)) (k : κ) (v : α) :
    alLookup (alInsert m k v) k = some v := by
  induction m with
  | nil => simp [alInsert, alLookup]
  | cons p rest ih =>
      obtain ⟨k', v'⟩ := p
      by_cases h : k' = k <;> simp [alInsert, alLookup, h, ih]

theorem alLookup_alInsert_ne (m : List (κ × α)) (k k' : κ) (v : α)
    (h : k' ≠ k) : alLookup (alInsert m k v) k' = alLookup m k' := by
  induction m with
  | nil => simp [alInsert, alLookup, Ne.symm h]
  | cons p rest ih =>
      obtain ⟨k₀, v₀⟩ := p
      by_cases h₀ : k₀ = k
      · subst h₀
        simp [alInsert, alLookup, Ne.symm h]
      · rw [show alInsert ((k₀, v₀) :: rest) k v = (k₀, v₀) :: alInsert rest k v by
            simp [alInsert, h₀]]
        by_cases h₁ : k₀ = k' <;> simp [alLookup, h₁, ih]

theorem alUpdate_absent (m : List (κ × α)) (k : κ) (f : α → α)
    (h : alLookup m k = none) : alUpdate m k f = m := by
  induction m with
  | nil => simp [alUpdate]
  | cons p rest ih =>
      obtain ⟨k', v⟩ := p
      by_cases hk : k' = k
      · simp [alLookup, hk] at h
      · simp [alLookup, hk] at h
        simp [alUpdate, hk, ih h]

theorem alLookup_alUpdate_self (m : List (κ × α)) (k : κ) (f : α → α) :
    alLookup (alUpdate m k f) k = (alLookup m k).map f := by
  induction m with
  | nil => simp [alUpdate, alLookup]
  | cons p rest ih =>
      obtain ⟨k', v⟩ := p
      by_cases hk : k' = k <;> simp [alUpdate, alLookup, hk, ih]

theorem alLookup_alUpdate_ne (m : List (κ × α)) (k k' : κ) (f : α → α)
    (h : k' ≠ k) : alLookup (alUpdate m k f) k' = alLookup m k' := by
  induction m with
  | nil => simp [alUpdate, alLookup]
  | cons p rest ih =>
      obtain ⟨k₀, v⟩ := p
      by_cases h₀ : k₀ = k
      · subst h₀
        simp [alUpdate, alLookup, Ne.symm h]
      · rw [show alUpdate ((k₀, v) :: rest) k f = (k₀, v) :: alUpdate rest k f by
            simp [alUpdate, h₀]]
        by_cases h₁ : k₀ = k' <;> simp [alLookup, h₁, ih]

theorem alRemove_absent (m : List (κ × α)) (k : κ)
    (h : alLookup m k = none) : alRemove m k = m := by
  induction m with
  | nil => simp [alRemove]
  | cons p rest ih =>
      obtain ⟨k', v⟩ := p
      by_cases hk : k' = k
      · simp [alLookup, hk] at h
      · simp [alLookup, hk] at h
        simp [alRemove, hk, ih h]

theorem alLookup_alRemove_ne (m : List (κ × α)) (k k' : κ) (h : k' ≠ k) :
    alLookup (alRemove m k) k' = alLookup m k' := by
  induction m with
  | nil => simp [alRemove, alLookup]
  | cons p rest ih =>
      obtain ⟨k₀, v⟩ := p
      by_cases h₀ : k₀ = k
      · subst h₀
        simp [alRemove, alLookup, Ne.symm h]
      · rw [show alRemove ((k₀, v) :: rest) k = (k₀, v) :: alRemove rest k by
            simp [alRemove, h₀]]
        by_cases h₁ : k₀ = k' <;> simp [alLookup, h₁, ih]

end AssocMap

/-! ## The node table and commands (lib.rs) -/

/-- The `Node` struct (lib.rs:230, declaration truncated by the merge-conflict
damage; the field list is recovered from the struct's uses in `cmd_task` and
`reify`). -/
structure Node where
  id : Nat
  name : String
  transform : Mat4
  entity_type : Nat
  model_url : String
  texture_url : String
  color : Rgba
  dimensions : Vec3
deriving DecidableEq, Repr

/-- The shared node table `HashMap<u64, Node>` of `BridgeState`. -/
abbrev Table := List (Nat × Node)

/-- The `Command` enum (lib.rs:40-50). -/
inductive Command where
  | Create (c_id : Nat) (name : String) (transform : Mat4)
  | Update (c_id : Nat) (transform : Mat4)
  | SetModel (c_id : Nat) (model_url : String)
  | SetTexture (c_id : Nat) (texture_url : String)
  | SetColor (c_id : Nat) (color : Rgba)
  | SetDimensions (c_id : Nat) (dimensions : Vec3)
  | SetEntityType (c_id : Nat) (entity_type : Nat)
  | Remove (c_id : Nat)
  | Shutdown
deriving DecidableEq, Repr

/-- The node built by `cmd_task`'s `Command::Create` arm (lib.rs:278-287):
id, name and transform from the command, all other fields fixed defaults. -/
def defaultNode (c_id : Nat) (name : String) (transform : Mat4) : Node :=
  { id := c_id
    name := name
    transform := transform
    entity_type := 1
    model_url := ""
    texture_url := ""
    color := ⟨1, 1, 1, 1⟩
    dimensions := ⟨1/10, 1/10, 1/10⟩ }

/-- One iteration of `cmd_task`'s match (lib.rs:275-351): the effect of a
single drained command on the shared node table.  The table mutex is held for
exactly this one mutation, so this is one atomic step.  `Shutdown` only sets
the stop flag and leaves the table unchanged. -/
def applyCommand (t : Table) : Command → Table
  | .Create c_id name transform => alInsert t c_id (defaultNode c_id name transform)
  | .Update c_id transform => alUpdate t c_id fun n => { n with transform := transform }
  | .SetModel c_id model_url => alUpdate t c_id fun n => { n with model_url := model_url }
  | .SetTexture c_id texture_url => alUpdate t c_id fun n => { n with texture_url := texture_url }
  | .SetColor c_id color => alUpdate t c_id fun n => { n with color := color }
  | .SetDimensions c_id dimensions => alUpdate t c_id fun n => { n with dimensions := dimensions }
  | .SetEntityType c_id entity_type => alUpdate t c_id fun n => { n with entity_type := entity_type }
  | .Remove c_id => alRemove t c_id
  | .Shutdown => t

/-- Draining a FIFO queue of commands: `cmd_task` receives the commands in
enqueue order and applies them one at a time. -/
def drainTable (t : Table) (cmds : List Command) : Table :=
  cmds.foldl applyCommand t

/-! ## The per-frame projection (`BridgeState::reify`, lib.rs:137-221) -/

/-- The `0.001` threshold of `reify` (lib.rs:139,145). -/
def reifyEps : ℚ := 1/1000

/-- What `reify` emits per kept node: the translation, rotation and scale
handed to `Transform::from_translation_rotation_scale` (lib.rs:147-150). -/
structure ProjNode where
  trans : Vec3
  rot : Quat
  scale : Vec3
deriving DecidableEq, Repr

/-- The placement part of `reify`'s per-node closure (lib.rs:137-150):
skip the node when `dims.length() < 0.001`; otherwise decompose the
transform and use `dims` as the visual scale when `dims.length() > 0.001`,
else the decomposed scale.  (The model-child loading below lib.rs:152 touches
the filesystem and the downloader; it does not affect key, omission or
placement and is outside this definition.) -/
def reifyNode (node : Node) : Option ProjNode :=
  let dims := node.dimensions
  if dims.lengthSq < reifyEps ^ 2 then none
  else
    let (sc, rq, tr) := node.transform.to_scale_rotation_translation
    let vis_scale := if reifyEps ^ 2 < dims.lengthSq then dims else sc
    some { trans := tr, rot := rq, scale := vis_scale }

/-- `reify`'s `children` iterator (lib.rs:137): the projection of the table
snapshot, keyed by node identifier. -/
def reify (t : Table) : List (Nat × ProjNode) :=
  t.filterMap fun p => (reifyNode p.2).map fun pr => (p.1, pr)

/-- `get_model_path`'s primitive fallback table (lib.rs:122-127): the
primitive model file used for each entity-type tag. -/
def entityPrimitive : Nat → Option String
  | 1 => some "cube.glb"
  | 2 => some "sphere.glb"
  | 3 => some "model.glb"
  | _ => none

/-! ## Session state and the C-ABI entry points (lib.rs:480-589)

The process-wide state visible to the boundary functions: the `STARTED`
atomic, the `Ctrl` singleton (id counter, queue producer handle, the shared
table reference, and `Ctrl`'s own `nodes` collection read by
`sdxr_node_count` at lib.rs:535), and the FIFO queue contents.  Every
boundary call locks `CTRL`, so each call is one atomic step. -/

/-- `u64` modulus. -/
def U64 : Nat := 2 ^ 64

/-- Process-wide bridge state as seen by the C-ABI functions. -/
structure SessionState where
  /-- The `STARTED` atomic flag. -/
  started : Bool
  /-- `Ctrl.next_id`, a `u64` (reset to 1 by `sdxr_start`, lib.rs:256). -/
  next_id : Nat
  /-- Whether `Ctrl.tx` holds a sender (`Option<Sender>.is_some()`). -/
  tx : Bool
  /-- The commands enqueued and not yet drained, in FIFO order. -/
  queue : List Command
  /-- The shared `BridgeState` node table (`Ctrl.shared_state`), mutated only
  by `cmd_task`. -/
  sharedNodes : Table
  /-- `Ctrl.nodes`, the collection whose length `sdxr_node_count` returns
  (lib.rs:535).  Its declaration sits in the merge-damaged region of lib.rs,
  but its existence is forced by that use, and no surviving code path ever
  writes to it: `cmd_task` writes only `shared_for_commands`, and `on_frame`
  writes only the projector-owned `BridgeState`. -/
  ctrlNodes : Table
deriving Repr

/-- Enqueue on `ctrl.tx` when the sender is present (`if let Some(tx) = &ctrl.tx`). -/
def enqueueCmd (s : SessionState) (c : Command) : SessionState :=
  if s.tx then { s with queue := s.queue ++ [c] } else s

/-- `sdxr_create_node` (lib.rs:496-508): returns 0 without enqueueing when not
started; otherwise allocates `next_id` under the `CTRL` lock, increments it
(wrapping `u64` addition), enqueues `Command::Create` and returns the id
immediately. -/
def sdxr_create_node (s : SessionState) (name : String) (mat : Mat4) :
    SessionState × Nat :=
  if !s.started then (s, 0)
  else
    let c_id := s.next_id
    let s₁ := { s with next_id := (s.next_id + 1) % U64 }
    (enqueueCmd s₁ (.Create c_id name mat), c_id)

/-- `sdxr_update_node` (lib.rs:510-520). -/
def sdxr_update_node (s : SessionState) (id : Nat) (mat : Mat4) :
    SessionState × Int :=
  if !s.started then (s, -1) else (enqueueCmd s (.Update id mat), 0)

/-- `sdxr_remove_node` (lib.rs:522-528). -/
def sdxr_remove_node (s : SessionState) (id : Nat) : SessionState × Int :=
  if !s.started then (s, -1) else (enqueueCmd s (.Remove id), 0)

/-- `sdxr_node_count` (lib.rs:531-536): 0 when not started, else the length
of `ctrl.nodes` read under the `CTRL` lock. -/
def sdxr_node_count (s : SessionState) : Nat :=
  if !s.started then 0 else s.ctrlNodes.length

/-- `sdxr_set_node_model` (lib.rs:538-547). -/
def sdxr_set_node_model (s : SessionState) (id : Nat) (url : String) :
    SessionState × Int :=
  if !s.started then (s, -1) else (enqueueCmd s (.SetModel id url), 0)

/-- `sdxr_set_node_texture` (lib.rs:549-558). -/
def sdxr_set_node_texture (s : SessionState) (id : Nat) (url : String) :
    SessionState × Int :=
  if !s.started then (s, -1) else (enqueueCmd s (.SetTexture id url), 0)

/-- `sdxr_set_node_color` (lib.rs:560-568). -/
def sdxr_set_node_color (s : SessionState) (id : Nat) (r g b a : ℚ) :
    SessionState × Int :=
  if !s.started then (s, -1) else (enqueueCmd s (.SetColor id ⟨r, g, b, a⟩), 0)

/-- `sdxr_set_node_dimensions` (lib.rs:570-578). -/
def sdxr_set_node_dimensions (s : SessionState) (id : Nat) (x y z : ℚ) :
    SessionState × Int :=
  if !s.started then (s, -1) else (enqueueCmd s (.SetDimensions id ⟨x, y, z⟩), 0)

/-- `sdxr_set_node_entity_type` (lib.rs:580-588). -/
def sdxr_set_node_entity_type (s : SessionState) (id : Nat) (e : Nat) :
    SessionState × Int :=
  if !s.started then (s, -1) else (enqueueCmd s (.SetEntityType id e), 0)

/-- The consumer draining every queued command in FIFO order
(`cmd_task`, lib.rs:273-353). -/
def drainAll (s : SessionState) : SessionState :=
  { s with queue := [], sharedNodes := drainTable s.sharedNodes s.queue }

/-- The session state right after a successful `sdxr_start`: started, sender
installed, `next_id` reset to 1 (lib.rs:256), empty queue and tables. -/
def postStartState : SessionState :=
  { started := true
    next_id := 1
    tx := true
    queue := []
    sharedNodes := []
    ctrlNodes := [] }

/-! ## Caller-visible create/remove sequences (for the id-allocation claims) -/

/-- A boundary call that a caller thread can make while the session is
active; id allocation is only touched by `create`. -/
inductive ApiCall where
  | create (name : String) (mat : Mat4)
  | removeCall (id : Nat)
deriving Repr

/-- Run a sequence of boundary calls, collecting the identifiers returned by
the `create_node` calls in order. -/
def runCalls : SessionState → List ApiCall → SessionState × List Nat
  | s, [] => (s, [])
  | s, .create name mat :: rest =>
      let r := sdxr_create_node s name mat
      let q := runCalls r.1 rest
      (q.1, r.2 :: q.2)
  | s, .removeCall id :: rest =>
      runCalls (sdxr_remove_node s id).1 rest

/-- Number of `create` calls in a sequence. -/
def createCount : List ApiCall → Nat
  | [] => 0
  | .create _ _ :: rest => createCount rest + 1
  | .removeCall _ :: rest => createCount rest

/-! ## Connection manager (lib.rs:356-381 worker retry loop, lib.rs:461-477
caller-facing polling loop)

Real time is abstracted to iteration indices: `succ i` / `failed i` are the
values of `CONNECTION_SUCCESS` / `CONNECTION_FAILED` the polling loop reads at
its `i`-th iteration, `attempts i` is whether the worker's `i`-th
`Client::connect()` call succeeds, and `stop i` is the `STOP_REQUESTED` value
the worker reads after the `i`-th failed attempt's 500 ms sleep. -/

/-- The polling interval of `sdxr_start` (50 ms sleep, lib.rs:473). -/
def pollIntervalMs : Nat := 50

/-- `max_wait_iterations` (lib.rs:462). -/
def maxWaitIterations : Nat := 120

/-- The worker's retry delay (500 ms sleep, lib.rs:377). -/
def retryDelayMs : Nat := 500

/-- `max_retries` (lib.rs:356). -/
def maxRetries : Nat := 10

/-- The polling loop of `sdxr_start` from iteration `i` with `fuel`
iterations left (lib.rs:463-477): check the success flag, then the failure
flag, then sleep; after the last iteration fall through to `return 0`
(lib.rs:477, the backwards-compatibility default). -/
def pollFrom (succ failed : Nat → Bool) : Nat → Nat → Int
  | _, 0 => 0
  | i, fuel + 1 =>
      if succ i then 0
      else if failed i then -1
      else pollFrom succ failed (i + 1) fuel

/-- The status `sdxr_start` returns once the worker is spawned: the polling
loop over `maxWaitIterations` iterations. -/
def startPollStatus (succ failed : Nat → Bool) : Int :=
  pollFrom succ failed 0 maxWaitIterations

/-- Terminal state of the worker's connect retry loop. -/
inductive ConnOutcome where
  | connected
  | failedOut
  | stopRequested
deriving DecidableEq, Repr

/-- The worker's connect retry loop (lib.rs:358-381), from attempt `i` with
`fuel` attempts remaining (entered with `fuel = maxRetries`, matching
`retry_count` running from 0): a successful attempt stores
`CONNECTION_SUCCESS` and breaks; a failed attempt increments `retry_count`
and, when the bound is reached (`retry_count >= max_retries`, i.e. this was
the last allowed attempt), stores `CONNECTION_FAILED` and returns; otherwise
it sleeps 500 ms, aborts silently if `STOP_REQUESTED` was set, and retries. -/
def connectRetry (attempts stop : Nat → Bool) : Nat → Nat → ConnOutcome
  | _, 0 => .failedOut
  | i, fuel + 1 =>
      if attempts i then .connected
      else if fuel = 0 then .failedOut
      else if stop i then .stopRequested
      else connectRetry attempts stop (i + 1) fuel

/-- The worker's connection outcome; `CONNECTION_FAILED` is set exactly when
this is `failedOut`, `CONNECTION_SUCCESS` exactly when it is `connected`. -/
def workerOutcome (attempts stop : Nat → Bool) : ConnOutcome :=
  connectRetry attempts stop 0 maxRetries

/-! ## Asset cache / downloader (model_downloader.rs) -/

/-- A filesystem path, as the downloader manipulates it: a stem and the part
after the final dot.  `dest_path` is `cache_dir.join("{hash}.{ext}")` with
`ext ∈ {glb, gltf, vrm}` (never containing a dot), so
`Path::with_extension("tmp")` is exactly "replace `ext` by `tmp`". -/
structure MPath where
  stem : String
  ext : String
deriving DecidableEq, Repr

/-- `url_hash` (model_downloader.rs:10-16): `{len:x}_{reversed sanitized
prefix}` where the sanitization replaces `/ : ? & =` by `_`. -/
def url_hash (url : String) : String :=
  let sanitized := url.map fun c =>
    if c = '/' ∨ c = ':' ∨ c = '?' ∨ c = '&' ∨ c = '=' then '_' else c
  let len := url.length
  String.mk (Nat.toDigits 16 len) ++ "_" ++
    String.mk (sanitized.data.reverse.take 32)

/-- The extension guess of `get_model` (model_downloader.rs:67-77). -/
def extFor (url : String) : String :=
  if url.endsWith ".glb" then "glb"
  else if url.endsWith ".gltf" then "gltf"
  else if url.endsWith ".vrm" then "vrm"
  else "glb"

/-- `dest_path = self.cache_dir.join(format!("{}.{}", url_hash(url), ext))`
(model_downloader.rs:79-81). -/
def destPath (cacheDir url : String) : MPath :=
  ⟨cacheDir ++ "/" ++ url_hash url, extFor url⟩

/-- `CacheEntry` (model_downloader.rs:19-23). -/
structure CacheEntry where
  path : MPath
  downloading : Bool
deriving DecidableEq, Repr

/-- The downloader-visible world: the `cache` map, the set of files present
on disk, and the log of network requests issued (one per `download_file`
call), used to state de-duplication. -/
structure DlWorld where
  cache : List (String × CacheEntry)
  disk : List MPath
  requests : List String
deriving Repr

/-- Result of one `get_model` call: the world it leaves behind and the
returned `Option<PathBuf>`. -/
structure GetModelOut where
  world : DlWorld
  result : Option MPath
deriving Repr

/-- The cache-miss tail of `get_model` (model_downloader.rs:66-123): compute
`dest_path`; adopt it if already on disk; otherwise insert the entry marked
`downloading`, run `download_file` (the one network request, its outcome
given by the oracle `dlOk`; on success the temp file has been renamed onto
`dest`), then mark the entry complete on success or evict it on failure. -/
def getModelMiss (w : DlWorld) (cacheDir url : String) (dlOk : Bool) :
    GetModelOut :=
  let dest := destPath cacheDir url
  if dest ∈ w.disk then
    ⟨{ w with cache := alInsert w.cache url ⟨dest, false⟩ }, some dest⟩
  else
    let w₁ := { w with cache := alInsert w.cache url ⟨dest, true⟩ }
    let w₂ := { w₁ with requests := w₁.requests ++ [url] }
    if dlOk then
      ⟨{ w₂ with
          disk := w₂.disk ++ [dest]
          cache := alInsert w₂.cache url ⟨dest, false⟩ }, some dest⟩
    else
      ⟨{ w₂ with cache := alRemove w₂.cache url }, none⟩

/-- `ModelDownloader::get_model` (model_downloader.rs:51-124).  The cache is
consulted under its lock first: an in-progress entry yields `None` with no
further work; a completed entry whose file exists yields the path; anything
else falls through to the miss path. -/
def getModel (w : DlWorld) (cacheDir url : String) (dlOk : Bool) :
    GetModelOut :=
  match alLookup w.cache url with
  | some e =>
      if e.downloading then ⟨w, none⟩
      else if e.path ∈ w.disk then ⟨w, some e.path⟩
      else getModelMiss w cacheDir url dlOk
  | none => getModelMiss w cacheDir url dlOk

/-! ## `download_file` step trace (model_downloader.rs:127-147)

For the atomic-write claim the call is refined into its observable disk
states.  A disk maps paths to a file's degree of completion. -/

/-- Completion state of a file on disk. -/
inductive FileData where
  /-- Created by `File::create`, payload not yet written. -/
  | created
  /-- Payload written by `write_all`, not yet flushed. -/
  | written
  /-- Flushed by `sync_all`. -/
  | flushed
deriving DecidableEq, Repr

/-- A disk: association of paths to file completion states. -/
abbrev Disk := List (MPath × FileData)

/-- `dest.with_extension("tmp")` (model_downloader.rs:137). -/
def tempPath (dest : MPath) : MPath := ⟨dest.stem, "tmp"⟩

/-- Number of disk-mutating milestones in a successful `download_file` run. -/
def dlStepCount : Nat := 4

/-- The disk as observable after `k` completed milestones of
`download_file url dest` (model_downloader.rs:127-147):
`k = 0` — request sent, status checked, payload received (no disk change yet);
`k = 1` — `File::create(temp)`;
`k = 2` — `write_all` of the payload into the temp file;
`k = 3` — `sync_all` (payload flushed to storage);
`k ≥ 4` — `fs::rename(temp, dest)`, the only step that touches `dest`.
A failure or interruption at any point is a prefix: the disk stays at some
`k < 4`. -/
def downloadDiskAt (disk₀ : Disk) (dest : MPath) : Nat → Disk
  | 0 => disk₀
  | 1 => alInsert disk₀ (tempPath dest) .created
  | 2 => alInsert disk₀ (tempPath dest) .written
  | 3 => alInsert disk₀ (tempPath dest) .flushed
  | _ + 4 =>
      alInsert (alRemove (alInsert disk₀ (tempPath dest) .flushed)
        (tempPath dest)) dest .flushed

/-! ## Helper lemmas -/

section AssocMapLemmas

variable {κ : Type} {α : Type} [DecidableEq κ]

theorem alLookup_eq_none_of_not_mem_keys (m : List (κ × α)) (k : κ)
    (h : k ∉ m.map Prod.fst) : alLookup m k = none := by
  induction m with
  | nil => rfl
  | cons p rest ih =>
      obtain ⟨k₀, v₀⟩ := p
      simp only [List.map_cons, List.mem_cons] at h
      push_neg at h
      simp [alLookup, Ne.symm h.1, ih h.2]

theorem mem_keys_alInsert (m : List (κ × α)) (k : κ) (v : α) (a : κ)
    (h : a ∈ (alInsert m k v).map Prod.fst) : a = k ∨ a ∈ m.map Prod.fst := by
  induction m with
  | nil => simpa [alInsert] using h
  | cons p rest ih =>
      obtain ⟨k₀, v₀⟩ := p
      by_cases h₀ : k₀ = k
      · simp only [alInsert, if_pos h₀, List.map_cons, List.mem_cons] at h
        rcases h with h | h
        · exact Or.inl h
        · exact Or.inr (by simp [h])
      · simp only [alInsert, if_neg h₀, List.map_cons, List.mem_cons] at h
        rcases h with h | h
        · exact Or.inr (by simp [h])
        · rcases ih h with h | h
          · exact Or.inl h
          · exact Or.inr (by simp [h])

theorem keysNodup_alInsert (m : List (κ × α)) (k : κ) (v : α)
    (hnd : (m.map Prod.fst).Nodup) : ((alInsert m k v).map Prod.fst).Nodup := by
  induction m with
  | nil => simp [alInsert]
  | cons p rest ih =>
      obtain ⟨k₀, v₀⟩ := p
      simp only [List.map_cons, List.nodup_cons] at hnd
      by_cases h₀ : k₀ = k
      · subst h₀
        simpa [alInsert] using hnd
      · simp only [alInsert, if_neg h₀, List.map_cons, List.nodup_cons]
        refine ⟨fun hmem => ?_, ih hnd.2⟩
        rcases mem_keys_alInsert rest k v k₀ hmem with h | h
        · exact h₀ h
        · exact hnd.1 h

theorem alLookup_alRemove_self (m : List (κ × α)) (k : κ)
    (hnd : (m.map Prod.fst).Nodup) : alLookup (alRemove m k) k = none := by
  induction m with
  | nil => rfl
  | cons p rest ih =>
      obtain ⟨k₀, v₀⟩ := p
      simp only [List.map_cons, List.nodup_cons] at hnd
      by_cases h₀ : k₀ = k
      · subst h₀
        simp only [alRemove, if_pos rfl]
        exact alLookup_eq_none_of_not_mem_keys rest k₀ hnd.1
      · simp [alRemove, alLookup, h₀, ih hnd.2]

end AssocMapLemmas

theorem mem_value_unique {κ α : Type} (m : List (κ × α))
    (hnd : (m.map Prod.fst).Nodup)
    {k : κ} {v₁ v₂ : α} (h₁ : (k, v₁) ∈ m) (h₂ : (k, v₂) ∈ m) : v₁ = v₂ := by
  induction m with
  | nil => cases h₁
  | cons p rest ih =>
      simp only [List.map_cons, List.nodup_cons] at hnd
      rcases List.mem_cons.mp h₁ with h₁ | h₁ <;>
        rcases List.mem_cons.mp h₂ with h₂ | h₂
      · rw [← h₁] at h₂; exact congrArg Prod.snd h₂.symm
      · exact absurd (by simpa using congrArg Prod.fst h₁ ▸ List.mem_map_of_mem Prod.fst h₂)
          (by rw [← h₁] at hnd ⊢; exact fun hh => hnd.1 (by simpa using hh))
      · exact absurd (by simpa using congrArg Prod.fst h₂ ▸ List.mem_map_of_mem Prod.fst h₁)
          (by rw [← h₂] at hnd ⊢; exact fun hh => hnd.1 (by simpa using hh))
      · exact ih hnd.2 h₁ h₂

theorem alLookup_isSome_applyCommand (t : Table) (A : Nat) (c : Command)
    (hc : c ≠ .Remove A) (h : (alLookup t A).isSome) :
    (alLookup (applyCommand t c) A).isSome := by
  cases c with
  | Create c_id name transform =>
      by_cases hk : A = c_id
      · subst hk; simp [applyCommand, alLookup_alInsert_self]
      · simpa [applyCommand, alLookup_alInsert_ne _ _ _ _ hk] using h
  | Update c_id transform =>
      by_cases hk : A = c_id
      · subst hk; simpa [applyCommand, alLookup_alUpdate_self] using h
      · simpa [applyCommand, alLookup_alUpdate_ne _ _ _ _ hk] using h
  | SetModel c_id url =>
      by_cases hk : A = c_id
      · subst hk; simpa [applyCommand, alLookup_alUpdate_self] using h
      · simpa [applyCommand, alLookup_alUpdate_ne _ _ _ _ hk] using h
  | SetTexture c_id url =>
      by_cases hk : A = c_id
      · subst hk; simpa [applyCommand, alLookup_alUpdate_self] using h
      · simpa [applyCommand, alLookup_alUpdate_ne _ _ _ _ hk] using h
  | SetColor c_id color =>
      by_cases hk : A = c_id
      · subst hk; simpa [applyCommand, alLookup_alUpdate_self] using h
      · simpa [applyCommand, alLookup_alUpdate_ne _ _ _ _ hk] using h
  | SetDimensions c_id dims =>
      by_cases hk : A = c_id
      · subst hk; simpa [applyCommand, alLookup_alUpdate_self] using h
      · simpa [applyCommand, alLookup_alUpdate_ne _ _ _ _ hk] using h
  | SetEntityType c_id e =>
      by_cases hk : A = c_id
      · subst hk; simpa [applyCommand, alLookup_alUpdate_self] using h
      · simpa [applyCommand, alLookup_alUpdate_ne _ _ _ _ hk] using h
  | Remove c_id =>
      have hk : A ≠ c_id := fun hh => hc (by rw [hh])
      simpa [applyCommand, alLookup_alRemove_ne _ _ _ hk] using h
  | Shutdown => simpa [applyCommand] using h

theorem alLookup_isSome_drainTable (cmds : List Command) (t : Table) (A : Nat)
    (hc : ∀ c ∈ cmds, c ≠ .Remove A) (h : (alLookup t A).isSome) :
    (alLookup (drainTable t cmds) A).isSome := by
  induction cmds generalizing t with
  | nil => simpa [drainTable] using h
  | cons c rest ih =>
      have : drainTable t (c :: rest) = drainTable (applyCommand t c) rest := rfl
      rw [this]
      exact ih (applyCommand t c) (fun c' hc' => hc c' (List.mem_cons_of_mem c hc'))
        (alLookup_isSome_applyCommand t A c (hc c (List.mem_cons_self c rest)) h)

theorem drainTable_append (t : Table) (xs ys : List Command) :
    drainTable t (xs ++ ys) = drainTable (drainTable t xs) ys :=
  List.foldl_append _ _ _ _

/-- An identity-like transform used as concrete input in witnesses. -/
def exampleMat : Mat4 := ⟨⟨1, 1, 1⟩, ⟨0, 0, 0, 1⟩, ⟨0, 0, 0⟩⟩

/-- A second transform, distinct from `exampleMat`. -/
def exampleMat2 : Mat4 := ⟨⟨1, 1, 1⟩, ⟨0, 0, 0, 1⟩, ⟨2, 0, 0⟩⟩

/-! ## The claims -/

/-- C10: every node inserted by a drained `Create` command takes only its id,
name and transform from the command and is otherwise initialized to fixed
defaults — entity type 1 (the box tag, whose primitive is `cube.glb`, not the
`unknown` tag), empty model URL, empty texture URL, opaque white color
`[1,1,1,1]` and dimensions `[0.1,0.1,0.1]` — so a freshly created node passes
the near-zero-dimensions filter of `reify` and is projected (as a box) with
its own transform until modified. -/
theorem c10_create_defaults (t : Table) (A : Nat) (nm : String) (tf : Mat4) :
    alLookup (applyCommand t (.Create A nm tf)) A = some (defaultNode A nm tf) ∧
    (defaultNode A nm tf).id = A ∧
    (defaultNode A nm tf).name = nm ∧
    (defaultNode A nm tf).transform = tf ∧
    (defaultNode A nm tf).entity_type = 1 ∧
    entityPrimitive 1 = some "cube.glb" ∧
    (defaultNode A nm tf).model_url = "" ∧
    (defaultNode A nm tf).texture_url = "" ∧
    (defaultNode A nm tf).color = ⟨1, 1, 1, 1⟩ ∧
    (defaultNode A nm tf).dimensions = ⟨1/10, 1/10, 1/10⟩ ∧
    reifyNode (defaultNode A nm tf)
      = some ⟨tf.trans, tf.rot, ⟨1/10, 1/10, 1/10⟩⟩ := by
  refine ⟨by simp [applyCommand, alLookup_alInsert_self], rfl, rfl, rfl, rfl,
    rfl, rfl, rfl, rfl, rfl, ?_⟩
  have h₁ : ¬((Vec3.mk (1/10) (1/10) (1/10)).lengthSq < reifyEps ^ 2) := by
    norm_num [Vec3.lengthSq, reifyEps]
  have h₂ : reifyEps ^ 2 < (Vec3.mk (1/10) (1/10) (1/10)).lengthSq := by
    norm_num [Vec3.lengthSq, reifyEps]
  simp only [reifyNode, defaultNode, Mat4.to_scale_rotation_translation]
  rw [if_neg h₁, if_pos h₂]

/-- C8: every drained command referencing an id absent from the node table
(`Update`, `SetModel`, `SetTexture`, `SetColor`, `SetDimensions`,
`SetEntityType`, `Remove`) is a no-op — it leaves the table exactly unchanged
— and is never fatal: the consumer goes on to drain the rest of the queue as
if the command were not there; in particular an `update_node` for a removed
id is accepted with success status 0 and produces no table change. -/
theorem c8_unknown_id_noop (t : Table) (A : Nat) (h : alLookup t A = none)
    (tf : Mat4) (url turl : String) (col : Rgba) (d : Vec3) (e : Nat)
    (rest : List Command) (s : SessionState) (hs : s.started = true) :
    applyCommand t (.Update A tf) = t ∧
    applyCommand t (.SetModel A url) = t ∧
    applyCommand t (.SetTexture A turl) = t ∧
    applyCommand t (.SetColor A col) = t ∧
    applyCommand t (.SetDimensions A d) = t ∧
    applyCommand t (.SetEntityType A e) = t ∧
    applyCommand t (.Remove A) = t ∧
    drainTable t (Command.Update A tf :: rest) = drainTable t rest ∧
    drainTable t (Command.Remove A :: rest) = drainTable t rest ∧
    (sdxr_update_node s A tf).2 = 0 := by
  have hu : ∀ f : Node → Node, alUpdate t A f = t := fun f => alUpdate_absent t A f h
  have hr : alRemove t A = t := alRemove_absent t A h
  refine ⟨hu _, hu _, hu _, hu _, hu _, hu _, hr, ?_, ?_, ?_⟩
  · show drainTable (applyCommand t (.Update A tf)) rest = drainTable t rest
    rw [show applyCommand t (.Update A tf) = t from hu _]
  · show drainTable (applyCommand t (.Remove A)) rest = drainTable t rest
    rw [show applyCommand t (.Remove A) = t from hr]
  · simp [sdxr_update_node, hs]

/-- Witness for C8 at a concrete input: the empty table does not contain id 1,
and a drained `Update` for id 1 leaves it unchanged while the boundary call
still reports success. -/
theorem c8_unknown_id_noop_witness :
    (alLookup ([] : Table) 1 = none ∧ postStartState.started = true) ∧
    (applyCommand [] (.Update 1 exampleMat) = [] ∧
      (sdxr_update_node postStartState 1 exampleMat).2 = 0) :=
  ⟨⟨rfl, rfl⟩,
    (c8_unknown_id_noop [] 1 rfl exampleMat "" "" ⟨1, 1, 1, 1⟩ ⟨0, 0, 0⟩ 1 []
        postStartState rfl).1,
    (c8_unknown_id_noop [] 1 rfl exampleMat "" "" ⟨1, 1, 1, 1⟩ ⟨0, 0, 0⟩ 1 []
        postStartState rfl).2.2.2.2.2.2.2.2.2⟩

/-- C7: when no session is active (`STARTED` false) `create_node` returns
identifier 0 and `update_node`, `remove_node` and all `set_*` calls return
the negative "not started" status −1, in every case leaving the whole state
(in particular the queue) untouched; when a session is active (`STARTED`
true, sender installed) each call appends exactly its command to the queue
and returns immediately — status 0 for the setters, the allocated id for
`create_node` — without touching the shared node table. -/
theorem c7_not_started_gating (s : SessionState) (nm : String) (mat : Mat4)
    (id e : Nat) (url turl : String) (r g b a x y z : ℚ) :
    (s.started = false →
      sdxr_create_node s nm mat = (s, 0) ∧
      sdxr_update_node s id mat = (s, -1) ∧
      sdxr_remove_node s id = (s, -1) ∧
      sdxr_set_node_model s id url = (s, -1) ∧
      sdxr_set_node_texture s id turl = (s, -1) ∧
      sdxr_set_node_color s id r g b a = (s, -1) ∧
      sdxr_set_node_dimensions s id x y z = (s, -1) ∧
      sdxr_set_node_entity_type s id e = (s, -1)) ∧
    (s.started = true → s.tx = true →
      ((sdxr_create_node s nm mat).2 = s.next_id ∧
        (sdxr_create_node s nm mat).1.queue
          = s.queue ++ [.Create s.next_id nm mat] ∧
        (sdxr_create_node s nm mat).1.sharedNodes = s.sharedNodes) ∧
      ((sdxr_update_node s id mat).2 = 0 ∧
        (sdxr_update_node s id mat).1.queue = s.queue ++ [.Update id mat] ∧
        (sdxr_update_node s id mat).1.sharedNodes = s.sharedNodes) ∧
      ((sdxr_remove_node s id).2 = 0 ∧
        (sdxr_remove_node s id).1.queue = s.queue ++ [.Remove id] ∧
        (sdxr_remove_node s id).1.sharedNodes = s.sharedNodes) ∧
      ((sdxr_set_node_model s id url).2 = 0 ∧
        (sdxr_set_node_model s id url).1.queue
          = s.queue ++ [.SetModel id url] ∧
        (sdxr_set_node_model s id url).1.sharedNodes = s.sharedNodes) ∧
      ((sdxr_set_node_texture s id turl).2 = 0 ∧
        (sdxr_set_node_texture s id turl).1.queue
          = s.queue ++ [.SetTexture id turl] ∧
        (sdxr_set_node_texture s id turl).1.sharedNodes = s.sharedNodes) ∧
      ((sdxr_set_node_color s id r g b a).2 = 0 ∧
        (sdxr_set_node_color s id r g b a).1.queue
          = s.queue ++ [.SetColor id ⟨r, g, b, a⟩] ∧
        (sdxr_set_node_color s id r g b a).1.sharedNodes = s.sharedNodes) ∧
      ((sdxr_set_node_dimensions s id x y z).2 = 0 ∧
        (sdxr_set_node_dimensions s id x y z).1.queue
          = s.queue ++ [.SetDimensions id ⟨x, y, z⟩] ∧
        (sdxr_set_node_dimensions s id x y z).1.sharedNodes = s.sharedNodes) ∧
      ((sdxr_set_node_entity_type s id e).2 = 0 ∧
        (sdxr_set_node_entity_type s id e).1.queue
          = s.queue ++ [.SetEntityType id e] ∧
        (sdxr_set_node_entity_type s id e).1.sharedNodes = s.sharedNodes)) := by
  constructor
  · intro hs
    refine ⟨?_, ?_, ?_, ?_, ?_, ?_, ?_, ?_⟩ <;>
      simp [sdxr_create_node, sdxr_update_node, sdxr_remove_node,
        sdxr_set_node_model, sdxr_set_node_texture, sdxr_set_node_color,
        sdxr_set_node_dimensions, sdxr_set_node_entity_type, hs]
  · intro hs htx
    refine ⟨⟨?_, ?_, ?_⟩, ⟨?_, ?_, ?_⟩, ⟨?_, ?_, ?_⟩, ⟨?_, ?_, ?_⟩,
      ⟨?_, ?_, ?_⟩, ⟨?_, ?_, ?_⟩, ⟨?_, ?_, ?_⟩, ⟨?_, ?_, ?_⟩⟩ <;>
      simp [sdxr_create_node, sdxr_update_node, sdxr_remove_node,
        sdxr_set_node_model, sdxr_set_node_texture, sdxr_set_node_color,
        sdxr_set_node_dimensions, sdxr_set_node_entity_type, enqueueCmd,
        hs, htx]

/-- C1: the queue is drained in strict FIFO order with each command applied
atomically (one `applyCommand` step per held lock): whenever a
`Create(A, tf)` is enqueued before an `Update(A, T)` — with any commands in
between and after, none of which removes `A` between the two — the table
after draining through the `Update` contains node `A` with transform `T`,
never the `Create`'s transform.  (Observations at command granularity are
exactly the fold prefixes of `drainTable`; no intermediate, partially
applied table state exists in the step relation.) -/
theorem c1_fifo_create_then_update (t₀ : Table) (c₁ c₂ : List Command)
    (A : Nat) (nm : String) (tf T : Mat4)
    (hc₂ : ∀ c ∈ c₂, c ≠ Command.Remove A) (hne : T ≠ tf) :
    ∃ n : Node,
      alLookup
        (drainTable t₀ (c₁ ++ Command.Create A nm tf :: (c₂ ++ [Command.Update A T]))) A
        = some n ∧ n.transform = T ∧ n.transform ≠ tf := by
  rw [drainTable_append]
  set t₁ := drainTable t₀ c₁ with ht₁
  have hsplit :
      drainTable t₁ (Command.Create A nm tf :: (c₂ ++ [Command.Update A T]))
        = drainTable (drainTable (applyCommand t₁ (.Create A nm tf)) c₂)
            [Command.Update A T] := by
    show drainTable (applyCommand t₁ (.Create A nm tf)) (c₂ ++ [Command.Update A T]) = _
    rw [drainTable_append]
  rw [hsplit]
  have hpresent : (alLookup (applyCommand t₁ (.Create A nm tf)) A).isSome := by
    simp [applyCommand, alLookup_alInsert_self]
  have hpresent₂ :
      (alLookup (drainTable (applyCommand t₁ (.Create A nm tf)) c₂) A).isSome :=
    alLookup_isSome_drainTable c₂ _ A hc₂ hpresent
  obtain ⟨n₂, hn₂⟩ := Option.isSome_iff_exists.mp hpresent₂
  have hupd : alLookup
      (drainTable (drainTable (applyCommand t₁ (.Create A nm tf)) c₂)
        [Command.Update A T]) A = some { n₂ with transform := T } := by
    show alLookup
        (alUpdate (drainTable (applyCommand t₁ (.Create A nm tf)) c₂) A
          fun n => { n with transform := T }) A = _
    rw [alLookup_alUpdate_self, hn₂]
    rfl
  exact ⟨{ n₂ with transform := T }, hupd, rfl, hne⟩

/-- Witness for C1 at a concrete input: with a `SetColor` for the same node
between the `Create` and the `Update`, the drained table holds the update's
transform. -/
theorem c1_fifo_create_then_update_witness :
    ((∀ c ∈ [Command.SetColor 1 ⟨0, 0, 1, 1⟩], c ≠ Command.Remove 1) ∧
      exampleMat2 ≠ exampleMat) ∧
    (∃ n : Node,
      alLookup
        (drainTable []
          ([] ++ Command.Create 1 "box" exampleMat ::
            ([Command.SetColor 1 ⟨0, 0, 1, 1⟩] ++ [Command.Update 1 exampleMat2]))) 1
        = some n ∧ n.transform = exampleMat2 ∧ n.transform ≠ exampleMat) :=
  ⟨⟨by decide, by decide⟩,
    c1_fifo_create_then_update [] [] [Command.SetColor 1 ⟨0, 0, 1, 1⟩] 1 "box"
      exampleMat exampleMat2 (by decide) (by decide)⟩

/-- C9: for every node of the table snapshot, `reify` omits the node exactly
when its dimensions vector has near-zero magnitude (squared length below the
squared `0.001` threshold); every projected node is keyed by its identifier
and placed with the transform's rotation and translation directly, the
dimensions vector overriding the transform's decomposed scale as the visual
extent whenever it is meaningful (squared length above the squared
threshold). -/
theorem c9_projection_rule (t : Table) (hnd : (t.map Prod.fst).Nodup)
    (id : Nat) (node : Node) (hmem : (id, node) ∈ t) :
    ((∃ pr, (id, pr) ∈ reify t) ↔
      ¬(node.dimensions.lengthSq < reifyEps ^ 2)) ∧
    ∀ pr, (id, pr) ∈ reify t →
      pr.rot = node.transform.rot ∧ pr.trans = node.transform.trans ∧
      pr.scale = (if reifyEps ^ 2 < node.dimensions.lengthSq then
        node.dimensions else node.transform.scale) := by
  have hchar : ∀ pr, (id, pr) ∈ reify t → reifyNode node = some pr := by
    intro pr hpr
    rw [reify, List.mem_filterMap] at hpr
    obtain ⟨⟨id', nd⟩, hmem', heq⟩ := hpr
    rcases hre : reifyNode nd with _ | pr'
    · simp [hre] at heq
    · simp only [hre, Option.map_some', Option.some.injEq, Prod.mk.injEq] at heq
      obtain ⟨hid, hpr'⟩ := heq
      subst hid
      have : nd = node := mem_value_unique t hnd hmem' hmem
      subst this
      rw [hre, hpr']
  constructor
  · constructor
    · rintro ⟨pr, hpr⟩
      have h := hchar pr hpr
      intro hlt
      rw [reifyNode] at h
      rw [if_pos hlt] at h
      exact Option.noConfusion h
    · intro hnlt
      refine ⟨⟨node.transform.trans, node.transform.rot,
        if reifyEps ^ 2 < node.dimensions.lengthSq then node.dimensions
        else node.transform.scale⟩, ?_⟩
      rw [reify, List.mem_filterMap]
      refine ⟨(id, node), hmem, ?_⟩
      simp only [reifyNode, Mat4.to_scale_rotation_translation, if_neg hnlt,
        Option.map_some']
  · intro pr hpr
    have := hchar pr hpr
    rw [reifyNode] at this
    by_cases hlt : node.dimensions.lengthSq < reifyEps ^ 2
    · rw [if_pos hlt] at this
      exact Option.noConfusion this
    · rw [if_neg hlt] at this
      simp only [Mat4.to_scale_rotation_translation, Option.some.injEq] at this
      subst this
      exact ⟨rfl, rfl, rfl⟩

/-- Witness for C9 at a concrete input: a two-node table with unique keys in
which node 1 has the default 10 cm dimensions and node 2 has zero dimensions;
node 1 is projected, node 2 is filtered out. -/
theorem c9_projection_rule_witness :
    (([(1, defaultNode 1 "a" exampleMat),
        (2, { defaultNode 2 "b" exampleMat with
                dimensions := ⟨0, 0, 0⟩ })].map Prod.fst).Nodup ∧
      (1, defaultNode 1 "a" exampleMat) ∈
        [(1, defaultNode 1 "a" exampleMat),
          (2, { defaultNode 2 "b" exampleMat with dimensions := ⟨0, 0, 0⟩ })]) ∧
    ((∃ pr, (1, pr) ∈ reify
        [(1, defaultNode 1 "a" exampleMat),
          (2, { defaultNode 2 "b" exampleMat with dimensions := ⟨0, 0, 0⟩ })]) ↔
      ¬((defaultNode 1 "a" exampleMat).dimensions.lengthSq < reifyEps ^ 2)) :=
  ⟨⟨by decide, List.mem_cons_self _ _⟩,
    (c9_projection_rule _ (by decide) 1 (defaultNode 1 "a" exampleMat)
      (List.mem_cons_self _ _)).1⟩

/-- Witness for C7 at concrete inputs: a not-started state rejects an update
with −1 and a create with id 0; the post-start state accepts an update with
status 0 and enqueues exactly that command. -/
theorem c7_not_started_gating_witness :
    (sdxr_create_node { postStartState with started := false } "a" exampleMat
        = ({ postStartState with started := false }, 0) ∧
      sdxr_update_node { postStartState with started := false } 1 exampleMat
        = ({ postStartState with started := false }, -1)) ∧
    ((sdxr_update_node postStartState 1 exampleMat).2 = 0 ∧
      (sdxr_update_node postStartState 1 exampleMat).1.queue
        = [.Update 1 exampleMat]) :=
  ⟨⟨((c7_not_started_gating { postStartState with started := false } "a"
        exampleMat 1 1 "" "" 1 1 1 1 1 1 1).1 rfl).1,
    ((c7_not_started_gating { postStartState with started := false } "a"
        exampleMat 1 1 "" "" 1 1 1 1 1 1 1).1 rfl).2.1⟩,
    ⟨(((c7_not_started_gating postStartState "a" exampleMat 1 1 "" "" 1 1 1 1
        1 1 1).2 rfl rfl).2.1).1,
      by
        have := (((c7_not_started_gating postStartState "a" exampleMat 1 1 ""
          "" 1 1 1 1 1 1 1).2 rfl rfl).2.1).2.1
        simpa [postStartState] using this⟩⟩

/-- C5: download de-duplication in `get_model`.  While the cache entry for a
URL is marked `downloading`, every `get_model` call for that URL returns
`None` and leaves the world — in particular the log of issued network
requests — untouched.  A completed entry whose file is on disk is returned
without any network request.  The single call that finds no entry performs
the one download: it logs exactly one request, returns the cache path, and
leaves the entry completed with the file on disk — after which a further
`get_model` call returns the cached path with, again, no new request. -/
theorem c5_download_dedup (w : DlWorld) (cacheDir url : String) (dlOk : Bool) :
    (∀ e, alLookup w.cache url = some e → e.downloading = true →
      getModel w cacheDir url dlOk = ⟨w, none⟩) ∧
    (∀ e, alLookup w.cache url = some e → e.downloading = false →
      e.path ∈ w.disk → getModel w cacheDir url dlOk = ⟨w, some e.path⟩) ∧
    (alLookup w.cache url = none → destPath cacheDir url ∉ w.disk →
      ((getModel w cacheDir url true).world.requests = w.requests ++ [url] ∧
        (getModel w cacheDir url true).result = some (destPath cacheDir url) ∧
        alLookup (getModel w cacheDir url true).world.cache url
          = some ⟨destPath cacheDir url, false⟩ ∧
        destPath cacheDir url ∈ (getModel w cacheDir url true).world.disk) ∧
      getModel (getModel w cacheDir url true).world cacheDir url dlOk
        = ⟨(getModel w cacheDir url true).world,
            some (destPath cacheDir url)⟩) := by
  refine ⟨?_, ?_, ?_⟩
  · intro e he hdl
    simp [getModel, he, hdl]
  · intro e he hdl hdisk
    simp [getModel, he, hdl, hdisk]
  · intro hnone hndisk
    have hmiss : getModel w cacheDir url true
        = ⟨{ w with
              cache := alInsert
                (alInsert w.cache url ⟨destPath cacheDir url, true⟩) url
                ⟨destPath cacheDir url, false⟩
              disk := w.disk ++ [destPath cacheDir url]
              requests := w.requests ++ [url] },
            some (destPath cacheDir url)⟩ := by
      simp [getModel, hnone, getModelMiss, hndisk]
    refine ⟨⟨?_, ?_, ?_, ?_⟩, ?_⟩
    · rw [hmiss]
    · rw [hmiss]
    · rw [hmiss]
      exact alLookup_alInsert_self _ _ _
    · rw [hmiss]
      simp
    · rw [hmiss]
      simp only [getModel, alLookup_alInsert_self]
      simp

/-- Witness for C5 at concrete inputs: a cache holding an in-progress entry
for `"u"` yields `None` without state change, and a fresh world downloads
once and then serves the cached path. -/
theorem c5_download_dedup_witness :
    (alLookup [("u", CacheEntry.mk ⟨"c/h", "glb"⟩ true)] "u"
        = some ⟨⟨"c/h", "glb"⟩, true⟩ ∧
      alLookup ([] : List (String × CacheEntry)) "u" = none ∧
      destPath "c" "u" ∉ ([] : List MPath)) ∧
    (getModel ⟨[("u", ⟨⟨"c/h", "glb"⟩, true⟩)], [], []⟩ "c" "u" true
        = ⟨⟨[("u", ⟨⟨"c/h", "glb"⟩, true⟩)], [], []⟩, none⟩ ∧
      (getModel ⟨[], [], []⟩ "c" "u" true).world.requests = [] ++ ["u"] ∧
      (getModel ⟨[], [], []⟩ "c" "u" true).result = some (destPath "c" "u")) :=
  ⟨⟨rfl, rfl, List.not_mem_nil _⟩,
    (c5_download_dedup ⟨[("u", ⟨⟨"c/h", "glb"⟩, true⟩)], [], []⟩ "c" "u"
        true).1 ⟨⟨"c/h", "glb"⟩, true⟩ rfl rfl,
    ((c5_download_dedup ⟨[], [], []⟩ "c" "u" true).2.2 rfl
        (List.not_mem_nil _)).1.1,
    ((c5_download_dedup ⟨[], [], []⟩ "c" "u" true).2.2 rfl
        (List.not_mem_nil _)).1.2.1⟩

/-- C6: atomic cache write in `download_file`.  With the canonical path `dest`
initially absent (and its extension one of `glb`/`gltf`/`vrm`, never `tmp`,
so the temporary path differs from it), every disk state strictly before the
final `rename` milestone has no file at `dest` at all; `dest` is only ever
observed fully flushed; and after the rename the flushed payload sits at
`dest` while the temporary path is gone. -/
theorem c6_atomic_cache_write (disk₀ : Disk) (dest : MPath)
    (hnd : (disk₀.map Prod.fst).Nodup)
    (h₀ : alLookup disk₀ dest = none) (hext : dest.ext ≠ "tmp") :
    (∀ k, k < dlStepCount →
      alLookup (downloadDiskAt disk₀ dest k) dest = none) ∧
    (∀ k fd, alLookup (downloadDiskAt disk₀ dest k) dest = some fd →
      fd = .flushed) ∧
    alLookup (downloadDiskAt disk₀ dest dlStepCount) dest
      = some .flushed ∧
    alLookup (downloadDiskAt disk₀ dest dlStepCount) (tempPath dest)
      = none := by
  have htne : dest ≠ tempPath dest := by
    intro hh
    exact hext (congrArg MPath.ext hh)
  have hpre : ∀ k, k < dlStepCount →
      alLookup (downloadDiskAt disk₀ dest k) dest = none := by
    intro k hk
    match k, hk with
    | 0, _ => exact h₀
    | 1, _ => rw [show downloadDiskAt disk₀ dest 1
                  = alInsert disk₀ (tempPath dest) .created from rfl,
                alLookup_alInsert_ne _ _ _ _ htne]; exact h₀
    | 2, _ => rw [show downloadDiskAt disk₀ dest 2
                  = alInsert disk₀ (tempPath dest) .written from rfl,
                alLookup_alInsert_ne _ _ _ _ htne]; exact h₀
    | 3, _ => rw [show downloadDiskAt disk₀ dest 3
                  = alInsert disk₀ (tempPath dest) .flushed from rfl,
                alLookup_alInsert_ne _ _ _ _ htne]; exact h₀
  refine ⟨hpre, ?_, ?_, ?_⟩
  · intro k fd hfd
    match k with
    | 0 => rw [hpre 0 (by norm_num [dlStepCount])] at hfd; cases hfd
    | 1 => rw [hpre 1 (by norm_num [dlStepCount])] at hfd; cases hfd
    | 2 => rw [hpre 2 (by norm_num [dlStepCount])] at hfd; cases hfd
    | 3 => rw [hpre 3 (by norm_num [dlStepCount])] at hfd; cases hfd
    | n + 4 =>
        rw [show downloadDiskAt disk₀ dest (n + 4)
            = alInsert (alRemove (alInsert disk₀ (tempPath dest) .flushed)
                (tempPath dest)) dest .flushed from rfl,
          alLookup_alInsert_self] at hfd
        cases hfd
        rfl
  · rw [show downloadDiskAt disk₀ dest dlStepCount
        = alInsert (alRemove (alInsert disk₀ (tempPath dest) .flushed)
            (tempPath dest)) dest .flushed from rfl,
      alLookup_alInsert_self]
  · rw [show downloadDiskAt disk₀ dest dlStepCount
        = alInsert (alRemove (alInsert disk₀ (tempPath dest) .flushed)
            (tempPath dest)) dest .flushed from rfl,
      alLookup_alInsert_ne _ _ _ _ (Ne.symm htne)]
    exact alLookup_alRemove_self _ _
      (keysNodup_alInsert disk₀ (tempPath dest) .flushed hnd)

/-- Witness for C6 at a concrete input: downloading to `cache/h.glb` on an
empty disk leaves `cache/h.glb` absent through the first three milestones and
present, flushed, with the temp path gone, after the rename. -/
theorem c6_atomic_cache_write_witness :
    ((([] : Disk).map Prod.fst).Nodup ∧
      alLookup ([] : Disk) ⟨"cache/h", "glb"⟩ = none ∧
      MPath.ext ⟨"cache/h", "glb"⟩ ≠ "tmp") ∧
    (alLookup (downloadDiskAt [] ⟨"cache/h", "glb"⟩ 2) ⟨"cache/h", "glb"⟩
        = none ∧
      alLookup (downloadDiskAt [] ⟨"cache/h", "glb"⟩ dlStepCount)
        ⟨"cache/h", "glb"⟩ = some .flushed) :=
  ⟨⟨List.nodup_nil, rfl, by decide⟩,
    (c6_atomic_cache_write [] ⟨"cache/h", "glb"⟩ List.nodup_nil rfl
        (by decide)).1 2 (by norm_num [dlStepCount]),
    (c6_atomic_cache_write [] ⟨"cache/h", "glb"⟩ List.nodup_nil rfl
        (by decide)).2.2.1⟩

theorem pollFrom_succ_first (succ failed : Nat → Bool) :
    ∀ (k i fuel : Nat), k < fuel → succ (i + k) = true →
      (∀ j, j < k → succ (i + j) = false ∧ failed (i + j) = false) →
      pollFrom succ failed i fuel = 0 := by
  intro k
  induction k with
  | zero =>
      intro i fuel hk hs _
      obtain ⟨f, rfl⟩ := Nat.exists_eq_succ_of_ne_zero (Nat.pos_iff_ne_zero.mp hk)
      rw [pollFrom]
      rw [show i + 0 = i from rfl] at hs
      rw [hs]
      simp
  | succ k ih =>
      intro i fuel hk hs hpre
      obtain ⟨f, rfl⟩ := Nat.exists_eq_succ_of_ne_zero
        (Nat.pos_iff_ne_zero.mp (Nat.lt_of_le_of_lt (Nat.zero_le _) hk))
      have h0 := hpre 0 (Nat.succ_pos k)
      rw [pollFrom]
      rw [show i + 0 = i from rfl] at h0
      rw [h0.1, h0.2]
      simp only [Bool.false_eq_true, if_false]
      exact ih (i + 1) f (Nat.lt_of_succ_lt_succ hk)
        (by rw [show i + 1 + k = i + (k + 1) by omega]; exact hs)
        (fun j hj => by
          rw [show i + 1 + j = i + (j + 1) by omega]
          exact hpre (j + 1) (Nat.succ_lt_succ hj))

theorem pollFrom_failed_first (succ failed : Nat → Bool) :
    ∀ (k i fuel : Nat), k < fuel → failed (i + k) = true → succ (i + k) = false →
      (∀ j, j < k → succ (i + j) = false ∧ failed (i + j) = false) →
      pollFrom succ failed i fuel = -1 := by
  intro k
  induction k with
  | zero =>
      intro i fuel hk hf hs _
      obtain ⟨f, rfl⟩ := Nat.exists_eq_succ_of_ne_zero (Nat.pos_iff_ne_zero.mp hk)
      rw [pollFrom]
      rw [show i + 0 = i from rfl] at hf hs
      rw [hs, hf]
      simp
  | succ k ih =>
      intro i fuel hk hf hs hpre
      obtain ⟨f, rfl⟩ := Nat.exists_eq_succ_of_ne_zero
        (Nat.pos_iff_ne_zero.mp (Nat.lt_of_le_of_lt (Nat.zero_le _) hk))
      have h0 := hpre 0 (Nat.succ_pos k)
      rw [pollFrom]
      rw [show i + 0 = i from rfl] at h0
      rw [h0.1, h0.2]
      simp only [Bool.false_eq_true, if_false]
      exact ih (i + 1) f (Nat.lt_of_succ_lt_succ hk)
        (by rw [show i + 1 + k = i + (k + 1) by omega]; exact hf)
        (by rw [show i + 1 + k = i + (k + 1) by omega]; exact hs)
        (fun j hj => by
          rw [show i + 1 + j = i + (j + 1) by omega]
          exact hpre (j + 1) (Nat.succ_lt_succ hj))

theorem pollFrom_neither (succ failed : Nat → Bool) :
    ∀ (fuel i : Nat),
      (∀ j, j < fuel → succ (i + j) = false ∧ failed (i + j) = false) →
      pollFrom succ failed i fuel = 0 := by
  intro fuel
  induction fuel with
  | zero => intro i _; rfl
  | succ f ih =>
      intro i hpre
      have h0 := hpre 0 (Nat.succ_pos f)
      rw [pollFrom]
      rw [show i + 0 = i from rfl] at h0
      rw [h0.1, h0.2]
      simp only [Bool.false_eq_true, if_false]
      exact ih (i + 1) fun j hj => by
        rw [show i + 1 + j = i + (j + 1) by omega]
        exact hpre (j + 1) (Nat.succ_lt_succ hj)

theorem connectRetry_all_fail (attempts stop : Nat → Bool) :
    ∀ (n i : Nat), 1 ≤ n →
      (∀ j, j < n → attempts (i + j) = false) →
      (∀ j, stop j = false) →
      connectRetry attempts stop i n = .failedOut := by
  intro n
  induction n with
  | zero => intro i h; cases h
  | succ f ih =>
      intro i _ hatt hstop
      have h0 := hatt 0 (Nat.succ_pos f)
      rw [show i + 0 = i from rfl] at h0
      rw [connectRetry, h0]
      simp only [Bool.false_eq_true, if_false]
      rcases Nat.eq_zero_or_pos f with hf | hf
      · subst hf; simp
      · rw [if_neg (Nat.pos_iff_ne_zero.mp hf), hstop i]
        simp only [Bool.false_eq_true, if_false]
        exact ih (i + 1) hf
          (fun j hj => by
            rw [show i + 1 + j = i + (j + 1) by omega]
            exact hatt (j + 1) (Nat.succ_lt_succ hj))
          hstop

theorem connectRetry_first_success (attempts stop : Nat → Bool) :
    ∀ (k i n : Nat), k < n → attempts (i + k) = true →
      (∀ j, j < k → attempts (i + j) = false) →
      (∀ j, stop j = false) →
      connectRetry attempts stop i n = .connected := by
  intro k
  induction k with
  | zero =>
      intro i n hk hs _ _
      obtain ⟨f, rfl⟩ := Nat.exists_eq_succ_of_ne_zero (Nat.pos_iff_ne_zero.mp hk)
      rw [connectRetry]
      rw [show i + 0 = i from rfl] at hs
      rw [hs]
      simp
  | succ k ih =>
      intro i n hk hs hpre hstop
      obtain ⟨f, rfl⟩ := Nat.exists_eq_succ_of_ne_zero
        (Nat.pos_iff_ne_zero.mp (Nat.lt_of_le_of_lt (Nat.zero_le _) hk))
      have h0 := hpre 0 (Nat.succ_pos k)
      rw [show i + 0 = i from rfl] at h0
      rw [connectRetry, h0]
      simp only [Bool.false_eq_true, if_false]
      have hf : f ≠ 0 := by omega
      rw [if_neg hf, hstop i]
      simp only [Bool.false_eq_true, if_false]
      exact ih (i + 1) f (by omega)
        (by rw [show i + 1 + k = i + (k + 1) by omega]; exact hs)
        (fun j hj => by
          rw [show i + 1 + j = i + (j + 1) by omega]
          exact hpre (j + 1) (Nat.succ_lt_succ hj))
        hstop

/-- C4: the caller-facing status of `start`.  The polling loop runs at most
`maxWaitIterations = 120` iterations of `pollIntervalMs = 50` ms (a 6000 ms
window): it returns 0 at the first iteration that observes the success flag,
returns −1 at the first iteration that observes the failure flag without the
success flag (the worker raises the failure flag exactly by exhausting all
`maxRetries = 10` connect attempts, spaced `retryDelayMs = 500` ms apart, and
the success flag by a connect succeeding within the bound), and returns 0 by
default when neither flag is observed in the whole window. -/
theorem c4_start_status (succ failed attempts stop : Nat → Bool) :
    (∀ i, i < maxWaitIterations → succ i = true →
      (∀ j, j < i → succ j = false ∧ failed j = false) →
      startPollStatus succ failed = 0) ∧
    (∀ i, i < maxWaitIterations → failed i = true → succ i = false →
      (∀ j, j < i → succ j = false ∧ failed j = false) →
      startPollStatus succ failed = -1) ∧
    ((∀ i, i < maxWaitIterations → succ i = false ∧ failed i = false) →
      startPollStatus succ failed = 0) ∧
    ((∀ i, i < maxRetries → attempts i = false) → (∀ i, stop i = false) →
      workerOutcome attempts stop = .failedOut) ∧
    (∀ i, i < maxRetries → attempts i = true →
      (∀ j, j < i → attempts j = false) → (∀ i, stop i = false) →
      workerOutcome attempts stop = .connected) ∧
    maxWaitIterations * pollIntervalMs = 6000 ∧
    maxRetries * retryDelayMs = 5000 := by
  refine ⟨?_, ?_, ?_, ?_, ?_, rfl, rfl⟩
  · intro i hi hs hpre
    exact pollFrom_succ_first succ failed i 0 maxWaitIterations hi
      (by simpa using hs) (fun j hj => by simpa using hpre j hj)
  · intro i hi hf hs hpre
    exact pollFrom_failed_first succ failed i 0 maxWaitIterations hi
      (by simpa using hf) (by simpa using hs)
      (fun j hj => by simpa using hpre j hj)
  · intro hpre
    exact pollFrom_neither succ failed maxWaitIterations 0
      (fun j hj => by simpa using hpre j hj)
  · intro hatt hstop
    exact connectRetry_all_fail attempts stop maxRetries 0
      (by norm_num [maxRetries]) (fun j hj => by simpa using hatt j hj) hstop
  · intro i hi hs hpre hstop
    exact connectRetry_first_success attempts stop i 0 maxRetries hi
      (by simpa using hs) (fun j hj => by simpa using hpre j hj) hstop

/-- Witness for C4 at concrete flag traces: with no flag ever raised the
window elapses and `start` reports success by default; with every connect
attempt failing and no stop request the worker ends in the failed state. -/
theorem c4_start_status_witness :
    startPollStatus (fun _ => false) (fun _ => false) = 0 ∧
    workerOutcome (fun _ => false) (fun _ => false) = .failedOut :=
  ⟨(c4_start_status (fun _ => false) (fun _ => false) (fun _ => false)
      (fun _ => false)).2.2.1 (fun _ _ => ⟨rfl, rfl⟩),
    (c4_start_status (fun _ => false) (fun _ => false) (fun _ => false)
      (fun _ => false)).2.2.2.1 (fun _ _ => rfl) (fun _ => rfl)⟩

theorem enqueueCmd_started (s : SessionState) (c : Command) :
    (enqueueCmd s c).started = s.started := by
  rw [enqueueCmd]; split <;> rfl

theorem enqueueCmd_next_id (s : SessionState) (c : Command) :
    (enqueueCmd s c).next_id = s.next_id := by
  rw [enqueueCmd]; split <;> rfl

theorem runCalls_create_ids (ops : List ApiCall) :
    ∀ s : SessionState, s.started = true → s.next_id < U64 →
      (runCalls s ops).2
        = (List.range (createCount ops)).map fun k => (s.next_id + k) % U64 := by
  induction ops with
  | nil => intro s _ _; rfl
  | cons op rest ih =>
      intro s hs hlt
      cases op with
      | create name mat =>
          show (sdxr_create_node s name mat).2 ::
              (runCalls (sdxr_create_node s name mat).1 rest).2 = _
          have hstep : sdxr_create_node s name mat
              = (enqueueCmd { s with next_id := (s.next_id + 1) % U64 }
                  (.Create s.next_id name mat), s.next_id) := by
            simp [sdxr_create_node, hs]
          rw [hstep]
          have hstate : (enqueueCmd { s with next_id := (s.next_id + 1) % U64 }
              (.Create s.next_id name mat)).started = true ∧
              (enqueueCmd { s with next_id := (s.next_id + 1) % U64 }
                (.Create s.next_id name mat)).next_id = (s.next_id + 1) % U64 :=
            ⟨by rw [enqueueCmd_started]; exact hs, by rw [enqueueCmd_next_id]⟩
          have hrest := ih _ hstate.1
            (by rw [hstate.2]; exact Nat.mod_lt _ (by norm_num [U64]))
          rw [hstate.2] at hrest
          rw [hrest]
          show s.next_id :: _ = _
          rw [createCount, List.range_succ_eq_map, List.map_cons]
          congr 1
          · rw [Nat.add_zero, Nat.mod_eq_of_lt hlt]
          · rw [List.map_map]
            refine List.map_congr_left fun k _ => ?_
            show ((s.next_id + 1) % U64 + k) % U64 = (s.next_id + (k + 1)) % U64
            rw [Nat.mod_add_mod]
            congr 1
            omega
      | removeCall id =>
          show (runCalls (sdxr_remove_node s id).1 rest).2 = _
          have hstep : (sdxr_remove_node s id).1 = enqueueCmd s (.Remove id) := by
            simp [sdxr_remove_node, hs]
          have hstate : (sdxr_remove_node s id).1.started = true ∧
              (sdxr_remove_node s id).1.next_id = s.next_id := by
            rw [hstep, enqueueCmd_started, enqueueCmd_next_id]
            exact ⟨hs, rfl⟩
          rw [show createCount (ApiCall.removeCall id :: rest)
              = createCount rest from rfl]
          rw [ih _ hstate.1 (by rw [hstate.2]; exact hlt), hstate.2]

theorem chain'_range_adjacent (r : Nat → Nat → Prop) (n m : Nat)
    (h : List.Chain' r (List.range n)) (hm : m + 1 < n) : r m (m + 1) := by
  have h' := List.chain'_iff_get.mp h m
    (by rw [List.length_range]; omega)
  simpa [List.get_eq_getElem, List.getElem_range] using h'

theorem createCount_replicate (n : Nat) (name : String) (mat : Mat4) :
    createCount (List.replicate n (ApiCall.create name mat)) = n := by
  induction n with
  | zero => rfl
  | succ m ih => rw [List.replicate_succ, createCount, ih]

/-- C2, amended: the identifiers returned by any interleaving of
`create_node` and `remove_node` calls in a session (starting from the
post-`start` state, `next_id = 1`) are pairwise strictly increasing in call
order and never repeat — provided the session performs fewer than `2^64`
`create_node` calls, since `next_id` is a `u64` that wraps. -/
theorem c2_create_ids_monotone (ops : List ApiCall)
    (hn : createCount ops < U64) :
    List.Pairwise (· < ·) (runCalls postStartState ops).2 ∧
    (runCalls postStartState ops).2.Nodup := by
  have hids := runCalls_create_ids ops postStartState rfl
    (by norm_num [U64, postStartState])
  have hform : (runCalls postStartState ops).2
      = (List.range (createCount ops)).map fun k => 1 + k := by
    rw [hids]
    refine List.map_congr_left fun k hk => ?_
    have hk' : k < createCount ops := List.mem_range.mp hk
    show (1 + k) % U64 = 1 + k
    exact Nat.mod_eq_of_lt (by omega)
  rw [hform]
  constructor
  · rw [List.pairwise_map]
    exact (List.pairwise_lt_range _).imp fun hab => by omega
  · exact (List.nodup_range _).map fun a b hab => by omega

/-- Witness for the amended C2 at a concrete input: create, remove the node,
create again — the returned ids are `[1, 2]`, strictly increasing and
distinct. -/
theorem c2_create_ids_monotone_witness :
    createCount [ApiCall.create "a" exampleMat, ApiCall.removeCall 1,
        ApiCall.create "b" exampleMat] < U64 ∧
    List.Pairwise (· < ·)
      (runCalls postStartState [ApiCall.create "a" exampleMat,
        ApiCall.removeCall 1, ApiCall.create "b" exampleMat]).2 ∧
    (runCalls postStartState [ApiCall.create "a" exampleMat,
      ApiCall.removeCall 1, ApiCall.create "b" exampleMat]).2.Nodup :=
  ⟨by norm_num [createCount, U64],
    (c2_create_ids_monotone _ (by norm_num [createCount, U64])).1,
    (c2_create_ids_monotone _ (by norm_num [createCount, U64])).2⟩

/-- Counterexample to C2 as stated: the claim promises strictly increasing,
never-repeating identifiers for *every* sequence of `create_node` calls in a
session, but `next_id` is a `u64` that starts at 1 and wraps, so the
`2^64`-th `create_node` call of a session returns 0, which is smaller than
its predecessor `2^64 - 1`: the id sequence of `2^64` consecutive creates is
not strictly increasing. -/
theorem c2_counterexample :
    ¬(List.Pairwise (· < ·)
        (runCalls postStartState
          (List.replicate U64 (ApiCall.create "n" exampleMat))).2 ∧
      (runCalls postStartState
        (List.replicate U64 (ApiCall.create "n" exampleMat))).2.Nodup) := by
  intro hcl
  have hids := runCalls_create_ids
    (List.replicate U64 (ApiCall.create "n" exampleMat)) postStartState rfl
    (by norm_num [U64, postStartState])
  rw [createCount_replicate] at hids
  have hU : U64 = 18446744073709551616 := by norm_num [U64]
  have hpw := hcl.1
  rw [hids, List.pairwise_map] at hpw
  have hl₁ : U64 - 2 < (List.range U64).length := by
    rw [List.length_range]; omega
  have hl₂ : U64 - 1 < (List.range U64).length := by
    rw [List.length_range]; omega
  have hlast := List.pairwise_iff_get.mp hpw ⟨U64 - 2, hl₁⟩ ⟨U64 - 1, hl₂⟩
    (Fin.mk_lt_mk.mpr (by omega))
  rw [List.get_range, List.get_range] at hlast
  simp only [show postStartState.next_id = 1 from rfl] at hlast
  rw [show (1 + (U64 - 2)) % U64 = U64 - 1 by
      rw [Nat.mod_eq_of_lt (by omega)]
      omega] at hlast
  rw [show (1 + (U64 - 1)) % U64 = 0 by
      rw [show 1 + (U64 - 1) = U64 by omega, Nat.mod_self]] at hlast
  exact Nat.not_lt_zero _ hlast

/-- The session state after `start`, one `create_node` (returning id 1) and a
full drain of the queue: the shared table holds the one created node, while
`Ctrl.nodes` — the collection `sdxr_node_count` actually reads — is untouched
by the consumer. -/
def c3_state : SessionState :=
  drainAll (sdxr_create_node postStartState "box" exampleMat).1

/-- C3 (code bug): after the `Create` drained, the shared node table has
exactly one entry, but `sdxr_node_count` returns 0, because it reads
`ctrl.nodes.len()` (lib.rs:535) and no code path ever writes `ctrl.nodes` —
the consumer task mutates only the shared table.  This contradicts both the
claim (`node_count` returns the size of the shared node table, increasing by
one per drained `Create`) and the function's own comment ("expose number of
nodes for diagnostics"). -/
theorem c3_node_count_bug :
    c3_state.queue = [] ∧
    c3_state.sharedNodes.length = 1 ∧
    sdxr_node_count c3_state = 0 ∧
    sdxr_node_count c3_state ≠ c3_state.sharedNodes.length := by
  refine ⟨rfl, rfl, rfl, ?_⟩
  intro h
  rw [show sdxr_node_count c3_state = 0 from rfl,
    show c3_state.sharedNodes.length = 1 from rfl] at h
  cases h
